import Mathlib

/-!
Verification of the `IndirectLight` builder and descriptor of
`filament/include/filament/IndirectLight.h`.

The repository ships only the public header: declarations, `noexcept`
qualifiers and the documented spherical-harmonics table.  The build-time
behaviour (validation, radiance-to-irradiance conversion, storage
normalisation) is therefore modelled from the specification, staying
faithful to the header's documented table and the spec's wording.
`float` values are embedded as exact rationals (`Scalar`), extended with
the non-finite values `posInf`, `negInf`, `nan` where finiteness
matters; a decimal constant such as `0.282095` is embedded exactly as
`Scalar.micro 282095` (i.e. `282095 / 10^6`).
-/

namespace Filament

/-- An exact rational, the embedding of a finite `float` value.  Kept in
canonical form (coprime numerator/denominator, positive denominator) by
all arithmetic below, so structural equality on computed values is value
equality. -/
structure Scalar where
  num : Int
  den : Nat
deriving DecidableEq, Repr

/-- Canonical form of the fraction `n / d` (junk `d = 0` maps to `0`). -/
def Scalar.norm (n : Int) (d : Nat) : Scalar :=
  if d = 0 then ⟨0, 1⟩
  else ⟨n / (Nat.gcd n.natAbs d : Int), d / Nat.gcd n.natAbs d⟩

/-- Multiplication of exact rationals. -/
def Scalar.mul (a b : Scalar) : Scalar :=
  Scalar.norm (a.num * b.num) (a.den * b.den)

/-- Addition of exact rationals. -/
def Scalar.add (a b : Scalar) : Scalar :=
  Scalar.norm (a.num * (b.den : Int) + b.num * (a.den : Int)) (a.den * b.den)

/-- Subtraction of exact rationals. -/
def Scalar.sub (a b : Scalar) : Scalar :=
  Scalar.norm (a.num * (b.den : Int) - b.num * (a.den : Int)) (a.den * b.den)

/-- The integer `n` as an exact rational. -/
def Scalar.ofInt (n : Int) : Scalar := ⟨n, 1⟩

/-- The decimal `n × 10⁻⁶` as an exact rational: the header's table
constants all have six decimal places. -/
def Scalar.micro (n : Int) : Scalar := Scalar.norm n 1000000

/-- Embedding of `math::float3`: an RGB coefficient triple. -/
structure float3 where
  x : Scalar
  y : Scalar
  z : Scalar
deriving DecidableEq, Repr

/-- The zero coefficient, used for zero-padding the stored SH set. -/
def float3.zero : float3 := ⟨⟨0, 1⟩, ⟨0, 1⟩, ⟨0, 1⟩⟩

/-- Componentwise scaling of a coefficient triple by a scalar. -/
def float3.smul (q : Scalar) (v : float3) : float3 :=
  ⟨q.mul v.x, q.mul v.y, q.mul v.z⟩

/-- Dot product of two triples (used by the rotation rigidity check). -/
def float3.dot (a b : float3) : Scalar :=
  ((a.x.mul b.x).add (a.y.mul b.y)).add (a.z.mul b.z)

/-- Embedding of `math::mat3f`: a 3x3 matrix given by its three columns. -/
structure mat3f where
  c0 : float3
  c1 : float3
  c2 : float3
deriving DecidableEq, Repr

/-- The identity matrix, the builder's default rotation. -/
def mat3f.identity : mat3f :=
  ⟨⟨Scalar.ofInt 1, Scalar.ofInt 0, Scalar.ofInt 0⟩,
   ⟨Scalar.ofInt 0, Scalar.ofInt 1, Scalar.ofInt 0⟩,
   ⟨Scalar.ofInt 0, Scalar.ofInt 0, Scalar.ofInt 1⟩⟩

/-- Determinant of a 3x3 matrix (columns c0 c1 c2). -/
def mat3f.det (m : mat3f) : Scalar :=
  (((m.c0.x.mul ((m.c1.y.mul m.c2.z).sub (m.c1.z.mul m.c2.y))).sub
    (m.c1.x.mul ((m.c0.y.mul m.c2.z).sub (m.c0.z.mul m.c2.y)))).add
    (m.c2.x.mul ((m.c0.y.mul m.c1.z).sub (m.c0.z.mul m.c1.y))))

/-- Modelled from the spec: `build` "validates the matrix is rigid
(orthonormal, determinant ≈ +1 within tolerance)".  The implementation of
this check is not in the repository sources; the spec names no concrete
tolerance, so over the exact rationals of this embedding the check is
exact: all columns unit length, pairwise orthogonal, determinant `+1`. -/
def rigidRotation (m : mat3f) : Bool :=
  decide (m.c0.dot m.c0 = Scalar.ofInt 1) &&
  decide (m.c1.dot m.c1 = Scalar.ofInt 1) &&
  decide (m.c2.dot m.c2 = Scalar.ofInt 1) &&
  decide (m.c0.dot m.c1 = Scalar.ofInt 0) &&
  decide (m.c0.dot m.c2 = Scalar.ofInt 0) &&
  decide (m.c1.dot m.c2 = Scalar.ofInt 0) &&
  decide (m.det = Scalar.ofInt 1)

/-- Embedding of C++ `float` for the intensity slot: an exact rational
when finite, or one of the non-finite IEEE values.  The spec requires the
intensity to be finite at build time. -/
inductive FFloat where
  | finite (q : Scalar)
  | posInf
  | negInf
  | nan
deriving DecidableEq, Repr

/-- Finiteness of an embedded float. -/
def FFloat.isFinite : FFloat → Bool
  | .finite _ => true
  | _ => false

/-- Opaque handle to a `filament::Texture` (cubemap); this layer stores
and forwards the handle without interpreting it. -/
structure Texture where
  id : Nat
deriving DecidableEq, Repr

/-- Whether an SH set was supplied in irradiance form (already convolved
and scaled, stored as-is) or in radiance form (raw coefficients, converted
at build per the header's documented table). -/
inductive ShForm where
  | irradianceForm
  | radianceForm
deriving DecidableEq, Repr

/-- A recorded SH irradiance source: the band count and coefficient list
passed to `irradiance(bands, sh)` or `radiance(bands, sh)`, tagged with
the form of the data.  Validation of `bands` and of the list length is
deferred to `build`. -/
structure ShSource where
  bands : Nat
  sh : List float3
  form : ShForm
deriving DecidableEq, Repr

/-- Modelled from the spec: the private `BuilderDetails` state behind
`IndirectLight::Builder` (not in the repository sources).  One slot per
configuration call; each call overwrites only its own slot. -/
structure BuilderDetails where
  mReflectionsMap : Option Texture
  mShSource : Option ShSource
  mIrradianceMap : Option Texture
  mIntensity : FFloat
  mRotation : mat3f
deriving DecidableEq, Repr

/-- The freshly constructed builder: nothing set, default intensity
30000, identity rotation. -/
def BuilderDetails.init : BuilderDetails :=
  { mReflectionsMap := none
    mShSource := none
    mIrradianceMap := none
    mIntensity := .finite (Scalar.ofInt 30000)
    mRotation := mat3f.identity }

/-- One configuration call on the builder, covering the public chaining
surface of `IndirectLight::Builder`. -/
inductive BCall where
  | reflections (cubemap : Texture)
  | irradianceSH (bands : Nat) (sh : List float3)
  | radianceSH (bands : Nat) (sh : List float3)
  | irradianceMap (cubemap : Texture)
  | intensity (envIntensity : FFloat)
  | rotation (m : mat3f)
deriving DecidableEq, Repr

/-- Modelled from the spec: each builder call records the latest value
for its slot and has no other effect (all calls are `noexcept` and always
succeed).  `irradiance(bands, sh)` and `radiance(bands, sh)` overwrite
the single SH slot (last write wins within the SH category);
`irradiance(cubemap)` records the separate cubemap-irradiance slot; no
call clears another category's slot. -/
def applyCall (b : BuilderDetails) : BCall → BuilderDetails
  | .reflections t => { b with mReflectionsMap := some t }
  | .irradianceSH bands sh =>
      { b with mShSource := some ⟨bands, sh, .irradianceForm⟩ }
  | .radianceSH bands sh =>
      { b with mShSource := some ⟨bands, sh, .radianceForm⟩ }
  | .irradianceMap t => { b with mIrradianceMap := some t }
  | .intensity x => { b with mIntensity := x }
  | .rotation m => { b with mRotation := m }

/-- A chained sequence of builder calls, applied left to right. -/
def applyCalls (b : BuilderDetails) (cs : List BCall) : BuilderDetails :=
  cs.foldl applyCall b

/-- Does this call set the SH irradiance source slot? -/
def setsShSource : BCall → Bool
  | .irradianceSH _ _ => true
  | .radianceSH _ _ => true
  | _ => false

/-- Does this call set the cubemap irradiance source slot? -/
def setsIrradianceMap : BCall → Bool
  | .irradianceMap _ => true
  | _ => false

/-- Is this call `Builder::intensity`? -/
def isIntensityCall : BCall → Bool
  | .intensity _ => true
  | _ => false

/-- SH band of a coefficient index: `index(l, m) = l*(l+1)+m` with
`m ∈ [-l, l]`, so the band of index `i` is `⌊√i⌋`. -/
def bandOf (i : Nat) : Nat := Nat.sqrt i

/-- The per-index radiance-to-irradiance conversion constants, exactly
the last column `(1/π)·K̂·Ĉ` of the table documented on
`Builder::irradiance(bands, sh)` (indices 0..8): 0.282095, then three
times 0.325735, then 0.045523, 0.091046, 0.157696, 0.091046, 0.045523. -/
def conversionConstant : Nat → Scalar
  | 0 => Scalar.micro 282095
  | 1 => Scalar.micro 325735
  | 2 => Scalar.micro 325735
  | 3 => Scalar.micro 325735
  | 4 => Scalar.micro 45523
  | 5 => Scalar.micro 91046
  | 6 => Scalar.micro 157696
  | 7 => Scalar.micro 91046
  | 8 => Scalar.micro 45523
  | _ => Scalar.ofInt 0

/-- Scales the coefficient at absolute index `i + k` by
`conversionConstant (i + k)`, for the whole tail of a list; `shScale 0`
is the radiance-to-irradiance conversion of a coefficient list. -/
def shScale (i : Nat) : List float3 → List float3
  | [] => []
  | c :: cs => float3.smul (conversionConstant i) c :: shScale (i + 1) cs

/-- Modelled from the spec: normalisation applied at build to the
supplied SH data.  Radiance-form coefficients are converted to
irradiance form by the per-index constants of the documented table;
irradiance-form coefficients are stored as-is. -/
def convertSH (form : ShForm) (sh : List float3) : List float3 :=
  match form with
  | .irradianceForm => sh
  | .radianceForm => shScale 0 sh

/-- Modelled from the spec: the stored SphericalHarmonicsSet is "always
stored as band-3 = 9 coefficients internally, zero-padded if fewer bands
were supplied". -/
def padTo9 (sh : List float3) : List float3 :=
  sh ++ List.replicate (9 - sh.length) float3.zero

/-- Configuration (precondition) errors that `build` can report, one per
validated constraint. -/
inductive BuildError where
  | mixedIrradianceSources
  | invalidBandCount
  | coefficientCountMismatch
  | nonRigidRotation
  | nonFiniteIntensity
deriving DecidableEq, Repr

/-- Legal SH band counts: 1, 2 or 3. -/
def validBands (n : Nat) : Bool := n == 1 || n == 2 || n == 3

/-- Modelled from the spec: the validations run by `build` (irradiance
source exclusivity, band-count legality, coefficient-array length,
rotation rigidity, finite intensity), returning the first failed
constraint, or `none` when the configuration is valid. -/
def validate (b : BuilderDetails) : Option BuildError :=
  if b.mShSource.isSome && b.mIrradianceMap.isSome then
    some .mixedIrradianceSources
  else if !(match b.mShSource with
            | none => true
            | some s => validBands s.bands) then
    some .invalidBandCount
  else if !(match b.mShSource with
            | none => true
            | some s => s.sh.length == s.bands * s.bands) then
    some .coefficientCountMismatch
  else if !(rigidRotation b.mRotation) then
    some .nonRigidRotation
  else if !(b.mIntensity.isFinite) then
    some .nonFiniteIntensity
  else
    none

/-- Embedding of the built `details::FIndirectLight` descriptor:
the normalised SH set (or none when the irradiance is a cubemap or
absent), the two texture handles, and the two runtime-mutable fields. -/
structure FIndirectLight where
  mIrradianceCoefs : Option (List float3)
  mIrradianceMap : Option Texture
  mReflectionsMap : Option Texture
  mIntensity : FFloat
  mRotation : mat3f
deriving DecidableEq, Repr

/-- Modelled from the spec: materialising the descriptor from a
validated builder — converts radiance to irradiance, zero-pads the SH
set to 9 coefficients, and copies the remaining slots. -/
def mkDescriptor (b : BuilderDetails) : FIndirectLight :=
  { mIrradianceCoefs := b.mShSource.map fun s => padTo9 (convertSH s.form s.sh)
    mIrradianceMap := b.mIrradianceMap
    mReflectionsMap := b.mReflectionsMap
    mIntensity := b.mIntensity
    mRotation := b.mRotation }

/-- The engine registry: the descriptors registered so far.  `build`
registers the new descriptor here on success. -/
structure Engine where
  lights : List FIndirectLight
deriving DecidableEq, Repr

/-- Modelled from the spec: `Builder::build(engine)` with exceptions
enabled — on any validation failure it signals a precondition error
identifying the failed constraint and leaves the engine untouched;
otherwise it creates the descriptor and registers it with the engine. -/
def buildE (b : BuilderDetails) (e : Engine) :
    Except BuildError (FIndirectLight × Engine) :=
  match validate b with
  | some err => .error err
  | none =>
      let d := mkDescriptor b
      .ok (d, ⟨e.lights ++ [d]⟩)

/-- Modelled from the spec: `build` in environments where failures
cannot be signalled as exceptions — it returns a null result instead,
still registering nothing on failure. -/
def build (b : BuilderDetails) (e : Engine) : Option FIndirectLight × Engine :=
  match buildE b e with
  | .error _ => (none, e)
  | .ok (d, e') => (some d, e')

/-- Whether `build` succeeds on this builder configuration. -/
def buildSucceeds (b : BuilderDetails) (e : Engine) : Bool :=
  match buildE b e with
  | .ok _ => true
  | .error _ => false

/-- `IndirectLight::setIntensity` — unconditional, stores the value. -/
def FIndirectLight.setIntensity (d : FIndirectLight) (x : FFloat) :
    FIndirectLight :=
  { d with mIntensity := x }

/-- `IndirectLight::getIntensity` — returns the last-set value. -/
def FIndirectLight.getIntensity (d : FIndirectLight) : FFloat :=
  d.mIntensity

/-- `IndirectLight::setRotation` — unconditional, no re-validation. -/
def FIndirectLight.setRotation (d : FIndirectLight) (m : mat3f) :
    FIndirectLight :=
  { d with mRotation := m }

/-- The public operations declared by `IndirectLight.h`: the builder
configuration surface, `build`, and the post-construction mutators and
accessor. -/
inductive Op where
  | reflections
  | irradianceSH
  | radianceSH
  | irradianceCubemap
  | intensity
  | rotation
  | buildOp
  | setIntensity
  | getIntensity
  | setRotation
deriving DecidableEq, Repr

/-- Transcription of the `noexcept` qualifiers declared in
`IndirectLight.h`: every public operation is declared `noexcept`
(lines 115, 167, 199, 218, 231, 240, 269, 274, 281) except
`build(Engine&)` (line 254), which is declared without `noexcept` and
documents the two exceptions it can raise. -/
def declaredNoexcept : Op → Bool
  | .reflections => true
  | .irradianceSH => true
  | .radianceSH => true
  | .irradianceCubemap => true
  | .intensity => true
  | .rotation => true
  | .buildOp => false
  | .setIntensity => true
  | .getIntensity => true
  | .setRotation => true

/-- A heap of builder objects, addressed by index: the C++ value-copy
semantics of `Builder(Builder const&)` is modelled as allocating a fresh
cell holding a duplicate of all recorded slots. -/
abbrev BuilderStore := List BuilderDetails

/-- The builder value stored at address `a`. -/
def builderAt (s : BuilderStore) (a : Nat) : BuilderDetails :=
  s.getD a BuilderDetails.init

/-- Modelled from the spec: `Builder b2 = b1` — "copying duplicates all
recorded slots (including any already-sized coefficient buffers)".
Returns the extended store and the fresh copy's address. -/
def copyBuilder (s : BuilderStore) (a : Nat) : BuilderStore × Nat :=
  (s ++ [builderAt s a], s.length)

/-- A configuration call performed on the builder at address `a`,
mutating only that cell. -/
def mutateAt (s : BuilderStore) (a : Nat) (c : BCall) : BuilderStore :=
  s.set a (applyCall (builderAt s a) c)

/-- An engine with no registered descriptors, used to instantiate the
engine-valued arguments of the theorems below. -/
def eng0 : Engine := ⟨[]⟩

/-- The all-ones coefficient triple, the concrete input named by the
spec's band-0 round-trip example. -/
def one3 : float3 := ⟨Scalar.ofInt 1, Scalar.ofInt 1, Scalar.ofInt 1⟩

/-- The identity matrix with its first column scaled by 2: the spec's
example of a non-rigid matrix (a matrix with a scaled row/column). -/
def badRot : mat3f :=
  ⟨⟨Scalar.ofInt 2, Scalar.ofInt 0, Scalar.ofInt 0⟩,
   ⟨Scalar.ofInt 0, Scalar.ofInt 1, Scalar.ofInt 0⟩,
   ⟨Scalar.ofInt 0, Scalar.ofInt 0, Scalar.ofInt 1⟩⟩

/-! Helper lemmas. -/

theorem bandOf_eq (i l : Nat) (h1 : l * l ≤ i) (h2 : i < (l + 1) * (l + 1)) :
    bandOf i = l :=
  (Nat.eq_sqrt.mpr ⟨h1, h2⟩).symm

theorem buildSucceeds_iff (b : BuilderDetails) (e : Engine) :
    buildSucceeds b e = true ↔ validate b = none := by
  unfold buildSucceeds buildE
  cases h : validate b <;> simp

theorem buildE_ok_descriptor (b : BuilderDetails) (e : Engine)
    (d : FIndirectLight) (e' : Engine) (h : buildE b e = .ok (d, e')) :
    d = mkDescriptor b ∧ validate b = none := by
  unfold buildE at h
  cases hv : validate b with
  | some err => rw [hv] at h; cases h
  | none =>
      rw [hv] at h
      simp only [Except.ok.injEq, Prod.mk.injEq] at h
      exact ⟨h.1.symm, rfl⟩

theorem validBands_iff (n : Nat) :
    validBands n = true ↔ (n = 1 ∨ n = 2 ∨ n = 3) := by
  simp [validBands, or_assoc]

@[simp]
theorem rigid_identity : rigidRotation mat3f.identity = true := by decide

@[simp]
theorem shScale_length (i : Nat) (l : List float3) :
    (shScale i l).length = l.length := by
  induction l generalizing i with
  | nil => rfl
  | cons c cs ih => simp [shScale, ih]

theorem shScale_getD (l : List float3) (k i : Nat) (h : i < l.length) :
    (shScale k l).getD i float3.zero
      = float3.smul (conversionConstant (k + i)) (l.getD i float3.zero) := by
  induction l generalizing k i with
  | nil => simp at h
  | cons c cs ih =>
      cases i with
      | zero => rfl
      | succ i =>
          have := ih (k + 1) i (by simpa using h)
          simpa [shScale, Nat.add_assoc, Nat.add_comm 1 i] using this

theorem getD_replicate (k i : Nat) (d : float3) :
    (List.replicate k d).getD i d = d := by
  induction k generalizing i with
  | zero => simp [List.getD]
  | succ k ih =>
      cases i with
      | zero => rfl
      | succ i => simp [List.replicate, ih i]

theorem padTo9_length (l : List float3) (h : l.length ≤ 9) :
    (padTo9 l).length = 9 := by
  simp [padTo9]
  omega

theorem padTo9_getD_lt (l : List float3) (i : Nat) (h : i < l.length) :
    (padTo9 l).getD i float3.zero = l.getD i float3.zero :=
  List.getD_append l _ float3.zero i h

theorem padTo9_getD_beyond (l : List float3) (i : Nat) (h : l.length ≤ i) :
    (padTo9 l).getD i float3.zero = float3.zero := by
  unfold padTo9
  rw [List.getD_append_right l _ float3.zero i h, getD_replicate]

theorem getD_set_ne (l : List BuilderDetails) (a b : Nat)
    (x d : BuilderDetails) (h : a ≠ b) :
    (l.set a x).getD b d = l.getD b d := by
  induction l generalizing a b with
  | nil => rfl
  | cons y ys ih =>
      cases a with
      | zero =>
          cases b with
          | zero => exact absurd rfl h
          | succ b => rfl
      | succ a =>
          cases b with
          | zero => rfl
          | succ b => exact ih a b (fun hc => h (by rw [hc]))

theorem applyCall_shSource_isSome (b : BuilderDetails) (c : BCall)
    (h : b.mShSource.isSome = true) :
    (applyCall b c).mShSource.isSome = true := by
  cases c <;> simp [applyCall, h]

theorem applyCall_irrMap_isSome (b : BuilderDetails) (c : BCall)
    (h : b.mIrradianceMap.isSome = true) :
    (applyCall b c).mIrradianceMap.isSome = true := by
  cases c <;> simp [applyCall, h]

theorem setsShSource_isSome (b : BuilderDetails) (c : BCall)
    (h : setsShSource c = true) :
    (applyCall b c).mShSource.isSome = true := by
  cases c <;> simp_all [applyCall, setsShSource]

theorem setsIrradianceMap_isSome (b : BuilderDetails) (c : BCall)
    (h : setsIrradianceMap c = true) :
    (applyCall b c).mIrradianceMap.isSome = true := by
  cases c <;> simp_all [applyCall, setsIrradianceMap]

theorem applyCalls_shSource_isSome (cs : List BCall) (b : BuilderDetails)
    (h : b.mShSource.isSome = true ∨ ∃ c ∈ cs, setsShSource c = true) :
    (applyCalls b cs).mShSource.isSome = true := by
  induction cs generalizing b with
  | nil =>
      rcases h with h | ⟨c, hc, _⟩
      · exact h
      · cases hc
  | cons c cs ih =>
      apply ih
      rcases h with h | ⟨c', hc', hset⟩
      · exact Or.inl (applyCall_shSource_isSome b c h)
      · rcases List.mem_cons.mp hc' with rfl | hmem
        · exact Or.inl (setsShSource_isSome b c' hset)
        · exact Or.inr ⟨c', hmem, hset⟩

theorem applyCalls_irrMap_isSome (cs : List BCall) (b : BuilderDetails)
    (h : b.mIrradianceMap.isSome = true ∨ ∃ c ∈ cs, setsIrradianceMap c = true) :
    (applyCalls b cs).mIrradianceMap.isSome = true := by
  induction cs generalizing b with
  | nil =>
      rcases h with h | ⟨c, hc, _⟩
      · exact h
      · cases hc
  | cons c cs ih =>
      apply ih
      rcases h with h | ⟨c', hc', hset⟩
      · exact Or.inl (applyCall_irrMap_isSome b c h)
      · rcases List.mem_cons.mp hc' with rfl | hmem
        · exact Or.inl (setsIrradianceMap_isSome b c' hset)
        · exact Or.inr ⟨c', hmem, hset⟩

theorem applyCalls_intensity (cs : List BCall) (b : BuilderDetails)
    (h : ∀ c ∈ cs, isIntensityCall c = false) :
    (applyCalls b cs).mIntensity = b.mIntensity := by
  induction cs generalizing b with
  | nil => rfl
  | cons c cs ih =>
      have hc : (applyCall b c).mIntensity = b.mIntensity := by
        cases c <;> simp_all [applyCall, isIntensityCall]
      have := ih (applyCall b c) (fun c' hc' => h c' (List.mem_cons_of_mem c hc'))
      rw [applyCalls] at *
      rw [List.foldl_cons, this, hc]

/-! Theorems for the claims. -/

/-- Claim C10: every public operation of the component except `build` is
declared `noexcept` and can never signal an error; `build` is the only
operation of the interface that can fail (and it can indeed fail, as the
concrete invalid configuration shows). -/
theorem C10_noexcept_surface :
    (∀ op : Op, declaredNoexcept op = true ↔ op ≠ Op.buildOp)
    ∧ buildSucceeds (applyCall BuilderDetails.init (BCall.irradianceSH 5 [])) eng0
        = false := by
  exact ⟨fun op => by cases op <;> decide, by decide⟩

/-- Claim C6: whenever `build` fails validation, it signals a
precondition error naming the failed constraint, and the no-exceptions
variant returns a null result; in both cases nothing is created or
registered with the engine. -/
theorem C6_validationFailure_noDescriptor (b : BuilderDetails) (e : Engine)
    (err : BuildError) (h : validate b = some err) :
    buildE b e = .error err ∧ build b e = (none, e) := by
  have hb : buildE b e = .error err := by unfold buildE; rw [h]
  exact ⟨hb, by unfold build; rw [hb]⟩

/-- Witness for C6: a builder with band count 5 fails at build with the
band-count error, and the null-returning variant registers nothing. -/
theorem C6_witness :
    buildE (applyCall BuilderDetails.init (BCall.irradianceSH 5 [])) eng0
        = .error BuildError.invalidBandCount
    ∧ build (applyCall BuilderDetails.init (BCall.irradianceSH 5 [])) eng0
        = (none, eng0) :=
  C6_validationFailure_noDescriptor _ eng0 BuildError.invalidBandCount rfl

theorem validate_sh_only (s : ShSource) :
    validate { BuilderDetails.init with mShSource := some s }
      = if validBands s.bands = false then some BuildError.invalidBandCount
        else if (s.sh.length == s.bands * s.bands) = false then
          some BuildError.coefficientCountMismatch
        else none := by
  unfold validate
  simp [BuilderDetails.init, FFloat.isFinite]

/-- Claim C4: `irradiance(bandCount, coeffs)` records its slot at call
time without failing; `build` then succeeds exactly when the band count
is 1, 2 or 3 and the coefficient array length is the band count squared,
and fails with a configuration error otherwise. -/
theorem C4_bandCount_length_validation (bands : Nat) (sh : List float3)
    (e : Engine) :
    (applyCall BuilderDetails.init (BCall.irradianceSH bands sh)).mShSource
        = some ⟨bands, sh, ShForm.irradianceForm⟩
    ∧ (buildSucceeds (applyCall BuilderDetails.init (BCall.irradianceSH bands sh)) e
          = true
        ↔ ((bands = 1 ∨ bands = 2 ∨ bands = 3) ∧ sh.length = bands * bands)) := by
  refine ⟨rfl, ?_⟩
  rw [buildSucceeds_iff]
  have happ : applyCall BuilderDetails.init (BCall.irradianceSH bands sh)
      = { BuilderDetails.init with mShSource := some ⟨bands, sh, ShForm.irradianceForm⟩ } :=
    rfl
  rw [happ, validate_sh_only]
  by_cases h1 : validBands bands = true
  · by_cases h2 : sh.length = bands * bands
    · have h3 := (validBands_iff bands).mp h1
      simp [h1, h2, h3]
    · simp [h1, h2]
  · have h1f : validBands bands = false := by
      cases hvb : validBands bands
      · rfl
      · exact absurd hvb h1
    simp [h1f]
    intro hb
    rw [← validBands_iff, h1f] at hb
    cases hb

/-- Claim C3: a call sequence that sets both an SH irradiance source and
a cubemap irradiance source, in any order, always makes `build` fail
with the mixed-sources configuration error; no source is silently
picked. -/
theorem C3_mixedSources_error (cs : List BCall) (e : Engine)
    (h1 : ∃ c ∈ cs, setsShSource c = true)
    (h2 : ∃ c ∈ cs, setsIrradianceMap c = true) :
    buildE (applyCalls BuilderDetails.init cs) e
      = .error BuildError.mixedIrradianceSources := by
  have hs := applyCalls_shSource_isSome cs BuilderDetails.init (Or.inr h1)
  have hm := applyCalls_irrMap_isSome cs BuilderDetails.init (Or.inr h2)
  have hv : validate (applyCalls BuilderDetails.init cs)
      = some BuildError.mixedIrradianceSources := by
    unfold validate
    rw [hs, hm]
    simp
  unfold buildE
  rw [hv]

/-- Witness for C3 at a concrete sequence, with the cubemap source set
first and the SH source second. -/
theorem C3_witness :
    buildE (applyCalls BuilderDetails.init
        [BCall.irradianceMap ⟨7⟩, BCall.irradianceSH 1 [one3]]) eng0
      = .error BuildError.mixedIrradianceSources :=
  C3_mixedSources_error [BCall.irradianceMap ⟨7⟩, BCall.irradianceSH 1 [one3]] eng0
    ⟨BCall.irradianceSH 1 [one3], by simp, rfl⟩
    ⟨BCall.irradianceMap ⟨7⟩, by simp, rfl⟩

theorem buildFails_of_validate_ne (b : BuilderDetails) (e : Engine)
    (h : ¬ validate b = none) : buildSucceeds b e = false := by
  cases hb : buildSucceeds b e
  · rfl
  · exact absurd ((buildSucceeds_iff b e).mp hb) h

/-- Claim C5: a builder whose recorded rotation fails the rigidity check
(orthonormal with determinant +1) never builds successfully, while
`rotation(identity)` on a fresh builder passes build. -/
theorem C5_rotation_validation (b : BuilderDetails) (e : Engine) :
    (rigidRotation b.mRotation = false → buildSucceeds b e = false)
    ∧ buildSucceeds (applyCall BuilderDetails.init
        (BCall.rotation mat3f.identity)) e = true := by
  constructor
  · intro h
    apply buildFails_of_validate_ne
    intro hv
    unfold validate at hv
    split_ifs at hv
    all_goals simp_all
  · rw [buildSucceeds_iff]
    decide

/-- Witness for C5: the identity with one column scaled by 2 is not
rigid and fails build; the identity itself builds. -/
theorem C5_witness :
    rigidRotation badRot = false
    ∧ buildSucceeds (applyCall BuilderDetails.init (BCall.rotation badRot)) eng0
        = false
    ∧ buildSucceeds (applyCall BuilderDetails.init
        (BCall.rotation mat3f.identity)) eng0 = true :=
  ⟨by decide,
   (C5_rotation_validation (applyCall BuilderDetails.init
       (BCall.rotation badRot)) eng0).1 (by decide),
   (C5_rotation_validation BuilderDetails.init eng0).2⟩

/-- Claim C7: `setIntensity(x)` then `getIntensity()` returns exactly
`x` for any finite `x`, and a descriptor built without any intensity
call reads the default intensity 30000. -/
theorem C7_intensity_roundtrip_default :
    (∀ (d : FIndirectLight) (x : FFloat), x.isFinite = true →
        (d.setIntensity x).getIntensity = x)
    ∧ (∀ (cs : List BCall) (e : Engine) (d : FIndirectLight) (e' : Engine),
        (∀ c ∈ cs, isIntensityCall c = false) →
        buildE (applyCalls BuilderDetails.init cs) e = .ok (d, e') →
        d.getIntensity = FFloat.finite (Scalar.ofInt 30000)) := by
  constructor
  · intro d x _
    rfl
  · intro cs e d e' hnoint hb
    have hd := (buildE_ok_descriptor _ _ _ _ hb).1
    have hint := applyCalls_intensity cs BuilderDetails.init hnoint
    rw [hd]
    show (applyCalls BuilderDetails.init cs).mIntensity
        = FFloat.finite (Scalar.ofInt 30000)
    rw [hint]
    rfl

/-- Witness for C7: set 5 and read it back exactly; a descriptor built
from the untouched builder reads 30000. -/
theorem C7_witness :
    ((mkDescriptor BuilderDetails.init).setIntensity
        (FFloat.finite (Scalar.ofInt 5))).getIntensity
      = FFloat.finite (Scalar.ofInt 5)
    ∧ (mkDescriptor BuilderDetails.init).getIntensity
      = FFloat.finite (Scalar.ofInt 30000) :=
  ⟨C7_intensity_roundtrip_default.1 (mkDescriptor BuilderDetails.init)
      (FFloat.finite (Scalar.ofInt 5)) rfl,
   C7_intensity_roundtrip_default.2 [] eng0 (mkDescriptor BuilderDetails.init)
      ⟨[mkDescriptor BuilderDetails.init]⟩
      (fun c hc => absurd hc (List.not_mem_nil c)) rfl⟩

theorem validate_none_sh (b : BuilderDetails) (s : ShSource)
    (hv : validate b = none) (hs : b.mShSource = some s) :
    validBands s.bands = true ∧ s.sh.length = s.bands * s.bands := by
  unfold validate at hv
  simp only [hs] at hv
  split_ifs at hv
  all_goals simp_all

/-- Claim C8: every built descriptor holding SH irradiance stores its
SphericalHarmonicsSet as exactly 9 coefficients, with the entries beyond
the supplied coefficient count equal to zero. -/
theorem C8_band3_zeroPadded (b : BuilderDetails) (e : Engine)
    (d : FIndirectLight) (e' : Engine) (s : ShSource) (l : List float3)
    (hb : buildE b e = .ok (d, e'))
    (hs : b.mShSource = some s)
    (hl : d.mIrradianceCoefs = some l) :
    l.length = 9
    ∧ ∀ i, s.sh.length ≤ i → i < 9 → l.getD i float3.zero = float3.zero := by
  obtain ⟨hd, hv⟩ := buildE_ok_descriptor b e d e' hb
  obtain ⟨hbands, hlen⟩ := validate_none_sh b s hv hs
  have hsh9 : s.sh.length ≤ 9 := by
    rcases (validBands_iff s.bands).mp hbands with h | h | h <;>
      rw [hlen, h] <;> decide
  have hlval : l = padTo9 (convertSH s.form s.sh) := by
    rw [hd] at hl
    unfold mkDescriptor at hl
    simp only [hs, Option.map_some', Option.some.injEq] at hl
    exact hl.symm
  have hclen : (convertSH s.form s.sh).length = s.sh.length := by
    cases s.form <;> simp [convertSH]
  constructor
  · rw [hlval]
    exact padTo9_length _ (by rw [hclen]; exact hsh9)
  · intro i hi _
    rw [hlval]
    exact padTo9_getD_beyond _ i (by rw [hclen]; exact hi)

/-- Witness for C8: one band supplied, index 5 of the stored set is
zero and the stored length is 9. -/
theorem C8_witness :
    (padTo9 (convertSH ShForm.irradianceForm [one3])).length = 9
    ∧ (padTo9 (convertSH ShForm.irradianceForm [one3])).getD 5 float3.zero
        = float3.zero :=
  ⟨(C8_band3_zeroPadded
      (applyCall BuilderDetails.init (BCall.irradianceSH 1 [one3])) eng0
      _ _ ⟨1, [one3], ShForm.irradianceForm⟩ _ rfl rfl rfl).1,
   (C8_band3_zeroPadded
      (applyCall BuilderDetails.init (BCall.irradianceSH 1 [one3])) eng0
      _ _ ⟨1, [one3], ShForm.irradianceForm⟩ _ rfl rfl rfl).2
      5 (by decide) (by decide)⟩

/-- Claim C9: copying a builder duplicates all recorded slots into an
independent fresh cell: a configuration call on the original leaves the
copy's recorded slots (and the descriptor its build would produce)
unchanged, and vice versa. -/
theorem C9_copy_independence (s : BuilderStore) (a : Nat) (c : BCall)
    (e : Engine) (ha : a < s.length) :
    (copyBuilder s a).2 ≠ a
    ∧ builderAt (copyBuilder s a).1 (copyBuilder s a).2 = builderAt s a
    ∧ builderAt (mutateAt (copyBuilder s a).1 a c) (copyBuilder s a).2
        = builderAt (copyBuilder s a).1 (copyBuilder s a).2
    ∧ builderAt (mutateAt (copyBuilder s a).1 (copyBuilder s a).2 c) a
        = builderAt (copyBuilder s a).1 a
    ∧ buildE (builderAt (mutateAt (copyBuilder s a).1 a c)
        (copyBuilder s a).2) e
        = buildE (builderAt (copyBuilder s a).1 (copyBuilder s a).2) e := by
  have hne : s.length ≠ a := Nat.ne_of_gt ha
  have h2 : builderAt (copyBuilder s a).1 (copyBuilder s a).2
      = builderAt s a := by
    show (s ++ [builderAt s a]).getD s.length BuilderDetails.init = _
    rw [List.getD_append_right _ _ _ _ (Nat.le_refl _), Nat.sub_self]
    rfl
  have h3 : builderAt (mutateAt (copyBuilder s a).1 a c) (copyBuilder s a).2
      = builderAt (copyBuilder s a).1 (copyBuilder s a).2 := by
    show ((s ++ [builderAt s a]).set a _).getD s.length BuilderDetails.init = _
    rw [getD_set_ne _ a s.length _ _ (fun hc => hne hc.symm)]
    rfl
  refine ⟨hne, h2, h3, ?_, ?_⟩
  · show ((s ++ [builderAt s a]).set s.length _).getD a BuilderDetails.init = _
    rw [getD_set_ne _ s.length a _ _ hne]
    rfl
  · rw [h3]

/-- Witness for C9 at the one-cell store holding a fresh builder, with
an intensity call as the mutation. -/
theorem C9_witness :
    (copyBuilder [BuilderDetails.init] 0).2 ≠ 0
    ∧ builderAt (copyBuilder [BuilderDetails.init] 0).1
        (copyBuilder [BuilderDetails.init] 0).2
        = builderAt [BuilderDetails.init] 0
    ∧ builderAt (mutateAt (copyBuilder [BuilderDetails.init] 0).1 0
          (BCall.intensity (FFloat.finite (Scalar.ofInt 5))))
        (copyBuilder [BuilderDetails.init] 0).2
        = builderAt (copyBuilder [BuilderDetails.init] 0).1
            (copyBuilder [BuilderDetails.init] 0).2
    ∧ builderAt (mutateAt (copyBuilder [BuilderDetails.init] 0).1
          (copyBuilder [BuilderDetails.init] 0).2
          (BCall.intensity (FFloat.finite (Scalar.ofInt 5)))) 0
        = builderAt (copyBuilder [BuilderDetails.init] 0).1 0
    ∧ buildE (builderAt (mutateAt (copyBuilder [BuilderDetails.init] 0).1 0
          (BCall.intensity (FFloat.finite (Scalar.ofInt 5))))
        (copyBuilder [BuilderDetails.init] 0).2) eng0
        = buildE (builderAt (copyBuilder [BuilderDetails.init] 0).1
            (copyBuilder [BuilderDetails.init] 0).2) eng0 :=
  C9_copy_independence [BuilderDetails.init] 0
    (BCall.intensity (FFloat.finite (Scalar.ofInt 5))) eng0 (by decide)

/-- Claim C1 counterexample: the conversion is not one constant per
band — indices 4 and 6 both lie in band 2 of the documented table, yet
their conversion constants differ (0.045523 vs 0.157696). -/
theorem C1_counterexample :
    bandOf 4 = 2 ∧ bandOf 6 = 2
    ∧ conversionConstant 4 ≠ conversionConstant 6 :=
  ⟨bandOf_eq 4 2 (by decide) (by decide), bandOf_eq 6 2 (by decide) (by decide),
   by decide⟩

/-- Claim C1 (amended): the radiance-to-irradiance conversion at build
multiplies the coefficient at index i by the fixed per-index constant
`(1/π)·K̂·Ĉ` of the documented table (0.282095; 0.325735 ×3; 0.045523,
0.091046, 0.157696, 0.091046, 0.045523); the constant is uniform over m
within bands 0 and 1 but varies with m within band 2. -/
theorem C1_perIndex_conversion :
    (conversionConstant 0 = Scalar.micro 282095
      ∧ conversionConstant 1 = Scalar.micro 325735
      ∧ conversionConstant 2 = Scalar.micro 325735
      ∧ conversionConstant 3 = Scalar.micro 325735
      ∧ conversionConstant 4 = Scalar.micro 45523
      ∧ conversionConstant 5 = Scalar.micro 91046
      ∧ conversionConstant 6 = Scalar.micro 157696
      ∧ conversionConstant 7 = Scalar.micro 91046
      ∧ conversionConstant 8 = Scalar.micro 45523)
    ∧ (∀ (b : BuilderDetails) (e : Engine) (s : ShSource)
        (d : FIndirectLight) (e' : Engine) (i : Nat),
        b.mShSource = some s → s.form = ShForm.radianceForm →
        buildE b e = .ok (d, e') → i < s.sh.length →
        ∃ l, d.mIrradianceCoefs = some l
          ∧ l.getD i float3.zero
              = float3.smul (conversionConstant i)
                  (s.sh.getD i float3.zero)) := by
  constructor
  · exact ⟨rfl, rfl, rfl, rfl, rfl, rfl, rfl, rfl, rfl⟩
  · intro b e s d e' i hs hf hb hi
    obtain ⟨hd, _⟩ := buildE_ok_descriptor b e d e' hb
    refine ⟨padTo9 (convertSH s.form s.sh), ?_, ?_⟩
    · rw [hd]
      unfold mkDescriptor
      simp [hs]
    · rw [hf]
      have hlen : i < (shScale 0 s.sh).length := by
        rw [shScale_length]; exact hi
      calc (padTo9 (convertSH ShForm.radianceForm s.sh)).getD i float3.zero
          = (shScale 0 s.sh).getD i float3.zero := padTo9_getD_lt _ i hlen
        _ = float3.smul (conversionConstant (0 + i))
              (s.sh.getD i float3.zero) := shScale_getD s.sh 0 i hi
        _ = float3.smul (conversionConstant i)
              (s.sh.getD i float3.zero) := by rw [Nat.zero_add]

/-- Witness for C1: the band-0 all-ones radiance input, read at index 0
of the built descriptor. -/
theorem C1_witness :
    ∃ l, (mkDescriptor (applyCall BuilderDetails.init
        (BCall.radianceSH 1 [one3]))).mIrradianceCoefs = some l
      ∧ l.getD 0 float3.zero
          = float3.smul (conversionConstant 0)
              (([one3] : List float3).getD 0 float3.zero) :=
  C1_perIndex_conversion.2
    (applyCall BuilderDetails.init (BCall.radianceSH 1 [one3])) eng0
    ⟨1, [one3], ShForm.radianceForm⟩ _ _ 0 rfl rfl rfl (by decide)

/-- Claim C2 counterexample: with band count 3 and all-ones radiance
input, indices 4 and 6 lie in the same band and carry equal inputs, yet
the stored coefficients differ — no per-band constant reproduces the
stored result. -/
theorem C2_counterexample :
    bandOf 4 = bandOf 6
    ∧ (List.replicate 9 one3).getD 4 float3.zero
        = (List.replicate 9 one3).getD 6 float3.zero
    ∧ (mkDescriptor (applyCall BuilderDetails.init
        (BCall.radianceSH 3 (List.replicate 9 one3)))).mIrradianceCoefs
      = some (shScale 0 (List.replicate 9 one3))
    ∧ (shScale 0 (List.replicate 9 one3)).getD 4 float3.zero
        ≠ (shScale 0 (List.replicate 9 one3)).getD 6 float3.zero :=
  ⟨(bandOf_eq 4 2 (by decide) (by decide)).trans
      (bandOf_eq 6 2 (by decide) (by decide)).symm,
   rfl, by decide, by decide⟩

/-- Claim C2 (amended): for every band count and coefficient list,
`radiance(bands, sh)` followed by build yields exactly the same outcome
as `irradiance(bands, sh')` where `sh'` scales each coefficient by the
per-index table constant (not a per-band constant); concretely, band-0
radiance input [1,1,1] stores irradiance [0.282095, 0.282095, 0.282095]
exactly. -/
theorem C2_radiance_irradiance_agree (bands : Nat) (sh : List float3)
    (e : Engine) :
    buildE (applyCall BuilderDetails.init (BCall.radianceSH bands sh)) e
      = buildE (applyCall BuilderDetails.init
          (BCall.irradianceSH bands (shScale 0 sh))) e
    ∧ (mkDescriptor (applyCall BuilderDetails.init
        (BCall.radianceSH 1 [one3]))).mIrradianceCoefs
      = some (⟨Scalar.micro 282095, Scalar.micro 282095, Scalar.micro 282095⟩
          :: List.replicate 8 float3.zero) := by
  constructor
  · have hv : validate (applyCall BuilderDetails.init (BCall.radianceSH bands sh))
        = validate (applyCall BuilderDetails.init
            (BCall.irradianceSH bands (shScale 0 sh))) := by
      unfold validate applyCall
      simp [BuilderDetails.init]
    unfold buildE
    rw [hv]
    cases validate (applyCall BuilderDetails.init
        (BCall.irradianceSH bands (shScale 0 sh))) with
    | some err => rfl
    | none => rfl
  · decide

end Filament
